import Mathlib

/-!
# Verification of the deep-analysis MCP tool-call orchestrator

Shallow embedding of `internal/client/deepanalysis.go` (the tool-call
orchestrator `Handle`, its conversation store and helpers) and of the
tilde-handling prologue of `internal/fileops` (`ReadFile`, `GrepFiles`,
`GlobFiles`), together with proofs of the specified properties.

Modelling conventions:
* The remote Responses API is an oracle `svc : Nat → Except String Response`:
  the k-th call to `client.Responses.New` during one `Handle` invocation
  returns `svc k` (`Except.error` models a non-nil Go error).
* The filesystem capability (`FileOps` interface) is a record of oracles.
* The conversation map `map[string]string` is modelled by its lookup
  function (Go map reads return the zero value `""` for absent keys, and the
  code never iterates the map, so `delete` is modelled as resetting to `""`).
* `Handle` additionally returns the submitted turns, the remote outcomes and
  the conversation map at submission time; these fields record values the Go
  code computes anyway (the request parameters passed to each remote call,
  each call's result, and the map state when the first call is issued), so
  they add observability without changing behaviour.
-/

namespace DeepAnalysis

/-- `maxIterations` from deepanalysis.go: limit on function call iterations. -/
def maxIterations : Nat := 10

/-- `defaultModel` from deepanalysis.go. -/
def defaultModel : String := "gpt-5-pro"

/-- One content item of a message output item (`item.Content[j]` with fields
`Type`, `Text`). -/
structure ContentItem where
  type : String
  text : String
  deriving DecidableEq

/-- One output item of a Responses API response (`response.Output[i]`; only
the fields the orchestrator reads: `Type`, `CallID`, `Name`, `Arguments`,
`Content`). -/
structure OutputItem where
  type : String
  callID : String
  name : String
  arguments : String
  content : List ContentItem
  deriving DecidableEq

/-- A Responses API response (`*responses.Response`; only the fields the
orchestrator reads: `ID`, `Output`). -/
structure Response where
  id : String
  output : List OutputItem
  deriving DecidableEq

/-- `ToolCall` from deepanalysis.go. -/
structure ToolCall where
  id : String
  name : String
  arguments : String
  deriving DecidableEq

/-- `extractToolCalls` from deepanalysis.go: the output items of type
`"function_call"`, in order. -/
def extractToolCalls (response : Response) : List ToolCall :=
  response.output.filterMap fun item =>
    if item.type = "function_call" then
      some ⟨item.callID, item.name, item.arguments⟩
    else
      none

/-- `joinStrings` from deepanalysis.go (also models `strings.Join` in
fileops): separator before every part except the first. -/
def joinStrings : List String → String → String
  | [], _ => ""
  | p :: rest, sep => p ++ joinStringsRest rest sep
where
  joinStringsRest : List String → String → String
  | [], _ => ""
  | p :: rest, sep => sep ++ p ++ joinStringsRest rest sep

/-- The text-joining loop at the end of `extractTextContent`: a separator is
inserted only when the accumulated result is non-empty (so leading empty
parts do not produce separators, unlike `joinStrings`). -/
def joinTextParts (parts : List String) : String :=
  parts.foldl (fun result part => if result ≠ "" then result ++ "\n" ++ part else result ++ part) ""

/-- `extractTextContent` from deepanalysis.go: the `Text` of every content
item of type `"text"` or `"output_text"` inside every output item of type
`"message"`, in order, joined by newline. -/
def extractTextContent (response : Response) : String :=
  let textParts := response.output.foldl (fun acc item =>
    if item.type = "message" then
      acc ++ item.content.filterMap (fun contentItem =>
        if contentItem.type = "text" ∨ contentItem.type = "output_text" then
          some contentItem.text
        else
          none)
    else acc) []
  joinTextParts textParts

/-- `mcp.CallToolResult` as the orchestrator builds it:
`mcp.NewToolResultError` sets the error flag, `mcp.NewToolResultText` does
not; both carry a single text payload. -/
structure CallToolResult where
  isError : Bool
  text : String
  deriving DecidableEq

/-- `mcp.NewToolResultError`. -/
def NewToolResultError (text : String) : CallToolResult := ⟨true, text⟩

/-- `mcp.NewToolResultText`. -/
def NewToolResultText (text : String) : CallToolResult := ⟨false, text⟩

/-- The conversation map `conv map[string]string`, modelled by its lookup
function (absent keys read as `""`, exactly as a Go map read does). -/
def Conv := String → String

/-- `getRespID` from deepanalysis.go: `c.conv[conversationID]`. -/
def getRespID (conv : Conv) (conversationID : String) : String :=
  conv conversationID

/-- `setRespID` from deepanalysis.go: `c.conv[conversationID] = responseID`. -/
def setRespID (conv : Conv) (conversationID responseID : String) : Conv :=
  fun k => if k = conversationID then responseID else conv k

/-- `clearRespID` from deepanalysis.go: `delete(c.conv, conversationID)`;
in the lookup-function model a deleted key reads as `""`, which is exactly
what the Go map read returns after `delete`. -/
def clearRespID (conv : Conv) (conversationID : String) : Conv :=
  fun k => if k = conversationID then "" else conv k

@[simp] theorem getRespID_setRespID_same (conv : Conv) (cid rid : String) :
    getRespID (setRespID conv cid rid) cid = rid := by
  simp [getRespID, setRespID]

@[simp] theorem getRespID_clearRespID_same (conv : Conv) (cid : String) :
    getRespID (clearRespID conv cid) cid = "" := by
  simp [getRespID, clearRespID]

/-! ## JSON argument payloads

`executeFunction` decodes each tool call's `argsJSON` with
`encoding/json.Unmarshal`. The decoder is stdlib code, modelled here by a
small JSON reader: a value tree, a fuel-bounded reader, and per-struct
decoding following Go's rules (top level must be an object or `null`; a
present field of the wrong type is an error; an absent or `null` field keeps
the zero value). The stdlib's exact error strings are modelled by fixed
messages. -/

/-- JSON values (number lexemes kept verbatim; no argument field is numeric). -/
inductive JsonVal where
  | null
  | bool (b : Bool)
  | num (lexeme : String)
  | str (s : String)
  | arr (elems : List JsonVal)
  | obj (fields : List (String × JsonVal))

/-- Drop leading JSON whitespace. -/
def skipWs : List Char → List Char
  | c :: rest =>
      if c = ' ' ∨ c = '\n' ∨ c = '\t' ∨ c = '\r' then skipWs rest else c :: rest
  | [] => []

/-- Read a JSON string body (after the opening quote), handling the
single-character escapes; `\u` escapes are not needed by any claim and are
read as errors. -/
def readStringBody : List Char → Option (String × List Char)
  | [] => none
  | '"' :: rest => some ("", rest)
  | '\\' :: c :: rest =>
      match readStringBody rest with
      | none => none
      | some (s, rem) =>
          match c with
          | '"' => some ("\"" ++ s, rem)
          | '\\' => some ("\\" ++ s, rem)
          | '/' => some ("/" ++ s, rem)
          | 'n' => some ("\n" ++ s, rem)
          | 't' => some ("\t" ++ s, rem)
          | 'r' => some ("\r" ++ s, rem)
          | 'b' => some ("\x08" ++ s, rem)
          | 'f' => some ("\x0c" ++ s, rem)
          | _ => none
  | c :: rest =>
      match readStringBody rest with
      | none => none
      | some (s, rem) => some (String.singleton c ++ s, rem)

/-- Characters that may occur in a JSON number lexeme. -/
def isNumChar (c : Char) : Bool :=
  c.isDigit ∨ c = '-' ∨ c = '+' ∨ c = '.' ∨ c = 'e' ∨ c = 'E'

mutual

/-- Read one JSON value; `fuel` bounds the nesting (one unit of fuel is spent
per consumed opening token, so `input.length + 1` always suffices). -/
def readVal (fuel : Nat) (input : List Char) : Option (JsonVal × List Char) :=
  match fuel with
  | 0 => none
  | fuel + 1 =>
      match skipWs input with
      | '"' :: rest =>
          match readStringBody rest with
          | none => none
          | some (s, rem) => some (JsonVal.str s, rem)
      | '{' :: rest =>
          match skipWs rest with
          | '}' :: rem => some (JsonVal.obj [], rem)
          | rest2 =>
              match readMembers fuel rest2 with
              | none => none
              | some (fields, rem) => some (JsonVal.obj fields, rem)
      | '[' :: rest =>
          match skipWs rest with
          | ']' :: rem => some (JsonVal.arr [], rem)
          | rest2 =>
              match readElems fuel rest2 with
              | none => none
              | some (elems, rem) => some (JsonVal.arr elems, rem)
      | 't' :: rest =>
          if rest.take 3 = ['r', 'u', 'e'] then some (JsonVal.bool true, rest.drop 3) else none
      | 'f' :: rest =>
          if rest.take 4 = ['a', 'l', 's', 'e'] then some (JsonVal.bool false, rest.drop 4)
          else none
      | 'n' :: rest =>
          if rest.take 3 = ['u', 'l', 'l'] then some (JsonVal.null, rest.drop 3) else none
      | c :: rest =>
          if c = '-' ∨ c.isDigit then
            some (JsonVal.num (String.mk (c :: rest.takeWhile isNumChar)),
                  rest.dropWhile isNumChar)
          else none
      | [] => none

/-- Read the members of a JSON object (input positioned at the first key). -/
def readMembers (fuel : Nat) (input : List Char) :
    Option (List (String × JsonVal) × List Char) :=
  match fuel with
  | 0 => none
  | fuel + 1 =>
      match skipWs input with
      | '"' :: rest =>
          match readStringBody rest with
          | none => none
          | some (key, rest2) =>
              match skipWs rest2 with
              | ':' :: rest3 =>
                  match readVal fuel rest3 with
                  | none => none
                  | some (v, rest4) =>
                      match skipWs rest4 with
                      | ',' :: rest5 =>
                          match readMembers fuel rest5 with
                          | none => none
                          | some (fields, rem) => some ((key, v) :: fields, rem)
                      | '}' :: rem => some ([(key, v)], rem)
                      | _ => none
              | _ => none
      | _ => none

/-- Read the elements of a JSON array (input positioned at the first element). -/
def readElems (fuel : Nat) (input : List Char) : Option (List JsonVal × List Char) :=
  match fuel with
  | 0 => none
  | fuel + 1 =>
      match readVal fuel input with
      | none => none
      | some (v, rest) =>
          match skipWs rest with
          | ',' :: rest2 =>
              match readElems fuel rest2 with
              | none => none
              | some (elems, rem) => some (v :: elems, rem)
          | ']' :: rem => some ([v], rem)
          | _ => none

end

/-- Parse a complete JSON document: the whole payload, up to trailing
whitespace, must be one value. -/
def jsonParse (s : String) : Option JsonVal :=
  match readVal (s.length + 1) s.data with
  | none => none
  | some (v, rest) => if skipWs rest = [] then some v else none

/-- Object field lookup; with a duplicated key, Go's decoder lets the last
occurrence win. -/
def lookupField (fields : List (String × JsonVal)) (key : String) : Option JsonVal :=
  ((fields.filter fun f => f.1 = key).getLast?).map fun f => f.2

/-- Decode a string-typed struct field: absent or `null` keeps the zero value
`""`; any other non-string value is a decode error. -/
def decodeStringField (fields : List (String × JsonVal)) (key : String) :
    Except String String :=
  match lookupField fields key with
  | none => Except.ok ""
  | some JsonVal.null => Except.ok ""
  | some (JsonVal.str s) => Except.ok s
  | some _ => Except.error ("cannot unmarshal field " ++ key)

/-- Decode a bool-typed struct field: absent or `null` keeps the zero value
`false`; any other non-bool value is a decode error. -/
def decodeBoolField (fields : List (String × JsonVal)) (key : String) :
    Except String Bool :=
  match lookupField fields key with
  | none => Except.ok false
  | some JsonVal.null => Except.ok false
  | some (JsonVal.bool b) => Except.ok b
  | some _ => Except.error ("cannot unmarshal field " ++ key)

/-- The anonymous args struct of the `read_file` case of `executeFunction`. -/
structure ReadFileArgs where
  path : String
  deriving DecidableEq

/-- The anonymous args struct of the `grep_files` case of `executeFunction`. -/
structure GrepFilesArgs where
  pattern : String
  path : String
  ignoreCase : Bool
  deriving DecidableEq

/-- The anonymous args struct of the `glob_files` case of `executeFunction`. -/
structure GlobFilesArgs where
  pattern : String
  deriving DecidableEq

/-- `json.Unmarshal([]byte(argsJSON), &struct{ Path string }{})`. -/
def unmarshalReadFileArgs (argsJSON : String) : Except String ReadFileArgs :=
  match jsonParse argsJSON with
  | none => Except.error "invalid JSON"
  | some JsonVal.null => Except.ok ⟨""⟩
  | some (JsonVal.obj fields) =>
      match decodeStringField fields "path" with
      | Except.error e => Except.error e
      | Except.ok p => Except.ok ⟨p⟩
  | some _ => Except.error "cannot unmarshal into struct"

/-- `json.Unmarshal` for the `grep_files` args struct. -/
def unmarshalGrepFilesArgs (argsJSON : String) : Except String GrepFilesArgs :=
  match jsonParse argsJSON with
  | none => Except.error "invalid JSON"
  | some JsonVal.null => Except.ok ⟨"", "", false⟩
  | some (JsonVal.obj fields) =>
      match decodeStringField fields "pattern" with
      | Except.error e => Except.error e
      | Except.ok pat =>
          match decodeStringField fields "path" with
          | Except.error e => Except.error e
          | Except.ok p =>
              match decodeBoolField fields "ignore_case" with
              | Except.error e => Except.error e
              | Except.ok ic => Except.ok ⟨pat, p, ic⟩
  | some _ => Except.error "cannot unmarshal into struct"

/-- `json.Unmarshal` for the `glob_files` args struct. -/
def unmarshalGlobFilesArgs (argsJSON : String) : Except String GlobFilesArgs :=
  match jsonParse argsJSON with
  | none => Except.error "invalid JSON"
  | some JsonVal.null => Except.ok ⟨""⟩
  | some (JsonVal.obj fields) =>
      match decodeStringField fields "pattern" with
      | Except.error e => Except.error e
      | Except.ok pat => Except.ok ⟨pat⟩
  | some _ => Except.error "cannot unmarshal into struct"

/-- The `FileOps` interface of deepanalysis.go, as the orchestrator sees it
within one `Handle` invocation (the ambient Go context is a fixed argument of
every method, so its effect is part of each oracle's behaviour). -/
structure FileOps where
  readFile : String → Except String String
  grepFiles : String → String → Bool → Except String String
  globFiles : String → Except String String

/-- `executeFunction` from deepanalysis.go: dispatch on the tool name, decode
the argument payload, call the file-operation capability; an unknown name or
a decode failure is an error. -/
def executeFunction (fops : FileOps) (name argsJSON : String) : Except String String :=
  if name = "read_file" then
    match unmarshalReadFileArgs argsJSON with
    | Except.error e => Except.error ("invalid arguments: " ++ e)
    | Except.ok args => fops.readFile args.path
  else if name = "grep_files" then
    match unmarshalGrepFilesArgs argsJSON with
    | Except.error e => Except.error ("invalid arguments: " ++ e)
    | Except.ok args => fops.grepFiles args.pattern args.path args.ignoreCase
  else if name = "glob_files" then
    match unmarshalGlobFilesArgs argsJSON with
    | Except.error e => Except.error ("invalid arguments: " ++ e)
    | Except.ok args => fops.globFiles args.pattern
  else
    Except.error ("unknown function: " ++ name)

/-! ## The orchestrator `Handle` -/

/-- The inbound `mcp.CallToolRequest`, after the typed getters of
deepanalysis.go have been applied. `task` is `none` when the argument is
absent (or not a string): mcp-go's `RequireString` errors only in that case
and returns any present string — including the empty string — as-is. The
optional getters `GetString`/`GetStringSlice`/`GetBool` substitute their
defaults (`""`, `nil`, `true`) for absent arguments, so the remaining fields
carry the already-defaulted values. -/
structure Request where
  task : Option String
  context : String
  files : List String
  continueConversation : Bool
  conversationID : String

/-- The message mcp-go's `RequireString("task")` produces for an absent
argument (modelled from the library: it errors only when the argument is
missing or not a string). -/
def requireTaskErrorMsg : String := "required argument \x22task\x22 not found"

/-- One item of `responses.ResponseInputParam`: either a user message
(`ResponseInputItemParamOfMessage`) or a tool output
(`ResponseInputItemParamOfFunctionCallOutput`). -/
inductive InputItem where
  | message (content : String) (role : String)
  | functionCallOutput (callID : String) (output : String)
  deriving DecidableEq

/-- The call identifier an input item answers (`""` for a message item). -/
def InputItem.callIDOf : InputItem → String
  | InputItem.message _ _ => ""
  | InputItem.functionCallOutput callID _ => callID

/-- The names of the three tool declarations built by `buildTools`; the
declaration set is constructed once and passed unchanged on every remote
call, so it is identified by its names here (no claim reads the JSON
schemas). -/
def toolNames : List String := ["read_file", "grep_files", "glob_files"]

/-- `buildSystemPrompt` from deepanalysis.go, abbreviated to its opening
line: the instruction text is a fixed constant whose content no claim
depends on; only its presence (initial turn) or absence (follow-up turns)
matters. -/
def buildSystemPrompt : String :=
  "You are an expert deep analysis AI consulted for the most challenging and complex problems."

/-- `responses.ResponseNewParams` as the orchestrator fills it: model,
optional instructions, optional previous-response identifier, input items,
and the (constant) tool declaration set. -/
structure RequestParams where
  model : String
  instructions : Option String
  previousResponseID : Option String
  input : List InputItem
  tools : List String
  deriving DecidableEq

/-- The attached-files annotation of one file (`Handle`, files loop body): a
successful read renders the full content fenced, a failed read renders the
error inline next to the file name. -/
def filePartOf (fops : FileOps) (filePath : String) : String :=
  match fops.readFile filePath with
  | Except.error e => "File: " ++ filePath ++ "\nError: " ++ e ++ "\n"
  | Except.ok content => "File: " ++ filePath ++ "\n```\n" ++ content ++ "\n```\n"

/-- The per-file parts of the attached-files block, in attachment order. -/
def filePartsOf (fops : FileOps) (files : List String) : List String :=
  files.map (filePartOf fops)

/-- `filesContent` as `Handle` computes it: empty when no files are attached,
otherwise the labeled attached-files block. -/
def filesContentOf (fops : FileOps) (files : List String) : String :=
  if files.length > 0 then
    "\n" ++ "Attached Files:\n" ++ joinStrings (filePartsOf fops files) "\n" ++ "\n"
  else ""

/-- The prompt composition of `Handle`: context block, attached-files block
and task, with the branch structure of the source. -/
def buildPrompt (context filesContent task : String) : String :=
  if context ≠ "" ∧ filesContent ≠ "" then
    "Context:\n" ++ context ++ filesContent ++ "\nTask:\n" ++ task
  else if context ≠ "" then
    "Context:\n" ++ context ++ "\n\nTask:\n" ++ task
  else if filesContent ≠ "" then
    filesContent ++ "\nTask:\n" ++ task
  else task

/-- The effective conversation identifier: the caller's value, or `"default"`
when absent/empty. -/
def effectiveConversationID (req : Request) : String :=
  if req.conversationID = "" then "default" else req.conversationID

/-- The tool-output list one loop iteration builds: one
`ResponseInputItemParamOfFunctionCallOutput` per tool call, in order, with a
failed execution rendered as the inline string `"Error: <reason>"`. -/
def buildToolOutputs (fops : FileOps) (toolCalls : List ToolCall) : List InputItem :=
  toolCalls.map fun toolCall =>
    match executeFunction fops toolCall.name toolCall.arguments with
    | Except.error e => InputItem.functionCallOutput toolCall.id ("Error: " ++ e)
    | Except.ok result => InputItem.functionCallOutput toolCall.id result

/-- What one `Handle` invocation produces and records: the returned
`CallToolResult`, the final conversation map, the conversation map at the
moment the initial turn was submitted, the submitted turns in order, and the
remote outcomes received in order. -/
structure HandleOut where
  result : CallToolResult
  conv : Conv
  convAtSubmit : Conv
  turns : List RequestParams
  calls : List (Except String Response)

/-- What the tool-execution loop produces: result, final map, the follow-up
turns it submitted and the remote outcomes it received. -/
structure LoopOut where
  result : CallToolResult
  conv : Conv
  turns : List RequestParams
  calls : List (Except String Response)

/-- The tool-execution loop of `Handle` (`for i := 0; i < maxIterations;
i++`), with the remaining budget as fuel: inspect the latest response; with
no tool calls return the extracted text (or the empty-response error); with
tool calls execute them, submit the follow-up turn, persist the new response
identifier on success; when the budget is exhausted fail with the
budget-exhausted error. `idx` is the index of the next remote call. -/
def handleLoop (fops : FileOps) (svc : Nat → Except String Response)
    (conversationID : String) :
    Nat → Nat → Response → Conv → LoopOut
  | 0, _, _, conv =>
      { result := NewToolResultError "Max function call iterations reached",
        conv := conv, turns := [], calls := [] }
  | fuel + 1, idx, response, conv =>
      let toolCalls := extractToolCalls response
      if toolCalls.isEmpty then
        let text := extractTextContent response
        if text = "" then
          { result := NewToolResultError "No text content in response",
            conv := conv, turns := [], calls := [] }
        else
          { result := NewToolResultText text, conv := conv, turns := [], calls := [] }
      else
        let toolOutputs := buildToolOutputs fops toolCalls
        let params : RequestParams :=
          { model := defaultModel, instructions := none,
            previousResponseID := some response.id,
            input := toolOutputs, tools := toolNames }
        match svc idx with
        | Except.error e =>
            { result := NewToolResultError ("OpenAI API error: " ++ e),
              conv := conv, turns := [params], calls := [Except.error e] }
        | Except.ok response2 =>
            let conv2 :=
              if conversationID ≠ "" then setRespID conv conversationID response2.id
              else conv
            let out := handleLoop fops svc conversationID fuel (idx + 1) response2 conv2
            { result := out.result, conv := out.conv,
              turns := params :: out.turns, calls := Except.ok response2 :: out.calls }

/-- `Handle` from deepanalysis.go: validate the task argument, read the
attached files, compose the prompt, resolve the continuation pointer
(looking it up when `continue` is true, clearing it when false), submit the
initial turn, persist the returned response identifier on success, and run
the tool-execution loop with the `maxIterations` budget. -/
def Handle (conv : Conv) (fops : FileOps) (svc : Nat → Except String Response)
    (req : Request) : HandleOut :=
  match req.task with
  | none =>
      { result := NewToolResultError requireTaskErrorMsg,
        conv := conv, convAtSubmit := conv, turns := [], calls := [] }
  | some task =>
      let conversationID := effectiveConversationID req
      let filesContent := filesContentOf fops req.files
      let prompt := buildPrompt req.context filesContent task
      let prevResponseID :=
        if req.continueConversation then getRespID conv conversationID else ""
      let conv1 :=
        if req.continueConversation then conv else clearRespID conv conversationID
      let params : RequestParams :=
        { model := defaultModel, instructions := some buildSystemPrompt,
          previousResponseID := if prevResponseID = "" then none else some prevResponseID,
          input := [InputItem.message prompt "user"], tools := toolNames }
      match svc 0 with
      | Except.error e =>
          { result := NewToolResultError ("OpenAI API error: " ++ e),
            conv := conv1, convAtSubmit := conv1,
            turns := [params], calls := [Except.error e] }
      | Except.ok response =>
          let conv2 :=
            if conversationID ≠ "" then setRespID conv1 conversationID response.id
            else conv1
          let out := handleLoop fops svc conversationID maxIterations 1 response conv2
          { result := out.result, conv := out.conv, convAtSubmit := conv1,
            turns := params :: out.turns, calls := Except.ok response :: out.calls }

end DeepAnalysis

namespace Fileops

/-!
## The filesystem capability provider `internal/fileops`

Shallow embedding of `ReadFile`, `GrepFiles` and `GlobFiles`. The operating
system and the Go stdlib calls they make (`os.UserHomeDir`, `os.Stat`,
`os.ReadFile`, `os.Open`, the scanner, `filepath.Glob`, `filepath.Join`,
`regexp.Compile`) are a record of oracles, so every theorem quantified over
the record holds whatever the filesystem contains. The ambient context is
`ctx : Option String` (`some e` = already cancelled with error `e`; it does
not change during one call, so the repeated in-loop context checks of the
source collapse into the initial one). -/

/-- The part of `os.FileInfo` the provider reads. -/
structure FileInfo where
  size : Nat
  isDir : Bool

/-- The OS / stdlib oracles the provider calls. -/
structure OS where
  userHomeDir : Except String String
  join : String → String → String
  stat : String → Except String FileInfo
  readFileBytes : String → Except String String
  glob : String → Except String (List String)
  openFile : String → Except String Unit
  readLines : String → Except String (List String)
  compileRegex : String → Except String (String → Bool)

/-- `maxFileSize` from fileops.go: 5MB. -/
def maxFileSize : Nat := 5 * 1024 * 1024

/-- The error message of the `~username` rejection. -/
def unsupportedPathMsg : String :=
  "unsupported path format: only ~/ is supported, not ~username"

/-- The tilde-expansion prologue shared verbatim by the three operations:
`strings.HasPrefix(path, "~")` is the first-character test and
`len(path) > 1 && path[1] != '/' && path[1] != filepath.Separator` the
second-character test (on Linux `filepath.Separator = '/'`, so the two
comparisons coincide); a `~username` form is rejected, a bare `~` or a
leading `~/` is joined onto the home directory, anything else passes
through. -/
def expandTildePath (os : OS) (path : String) : Except String String :=
  match path.data with
  | '~' :: c :: _ =>
      if c ≠ '/' then Except.error unsupportedPathMsg
      else
        match os.userHomeDir with
        | Except.error e => Except.error ("failed to get home directory: " ++ e)
        | Except.ok home => Except.ok (os.join home (String.mk (path.data.drop 1)))
  | ['~'] =>
      match os.userHomeDir with
      | Except.error e => Except.error ("failed to get home directory: " ++ e)
      | Except.ok home => Except.ok (os.join home "")
  | _ => Except.ok path

/-- `ReadFile` from fileops.go: context check, tilde expansion, stat and size
check, second context check, read. -/
def ReadFile (os : OS) (ctx : Option String) (path : String) : Except String String :=
  match ctx with
  | some e => Except.error e
  | none =>
      match expandTildePath os path with
      | Except.error e => Except.error e
      | Except.ok path =>
          match os.stat path with
          | Except.error e => Except.error ("failed to stat file: " ++ e)
          | Except.ok info =>
              if info.size > maxFileSize then
                Except.error ("file too large (" ++ toString info.size ++ " bytes, max "
                  ++ toString maxFileSize ++ " bytes): consider using grep_files instead")
              else
                match os.readFileBytes path with
                | Except.error e => Except.error ("failed to read file: " ++ e)
                | Except.ok content => Except.ok content

/-- The per-file body of the `GrepFiles` search loop: a stat failure, a
directory, or an open failure skips the file; a scanner failure aborts the
whole search; otherwise the matching lines are collected as
`lineNum:line`, preceded by a `\npath:` header when any matched. -/
def grepFile (os : OS) (re : String → Bool) (path : String) :
    Except String (List String) :=
  match os.stat path with
  | Except.error _ => Except.ok []
  | Except.ok info =>
      if info.isDir then Except.ok []
      else
        match os.openFile path with
        | Except.error _ => Except.ok []
        | Except.ok _ =>
            match os.readLines path with
            | Except.error e => Except.error ("error scanning " ++ path ++ ": " ++ e)
            | Except.ok lines =>
                let fileResults := lines.enum.filterMap fun p =>
                  if re p.2 then some (toString (p.1 + 1) ++ ":" ++ p.2) else none
                if fileResults.isEmpty then Except.ok []
                else Except.ok (("\n" ++ path ++ ":") :: fileResults)

/-- The `GrepFiles` search loop over all glob results. -/
def grepAll (os : OS) (re : String → Bool) : List String → Except String (List String)
  | [] => Except.ok []
  | path :: rest =>
      match grepFile os re path with
      | Except.error e => Except.error e
      | Except.ok r =>
          match grepAll os re rest with
          | Except.error e => Except.error e
          | Except.ok rs => Except.ok (r ++ rs)

/-- `GrepFiles` from fileops.go: context check, regex compilation (with the
`(?i)` flag when `ignoreCase`), tilde expansion of the path pattern, glob,
then the per-file search loop. -/
def GrepFiles (os : OS) (ctx : Option String) (pattern pathPattern : String)
    (ignoreCase : Bool) : Except String String :=
  match ctx with
  | some e => Except.error e
  | none =>
      let flags := if ignoreCase then "(?i)" else ""
      match os.compileRegex (flags ++ pattern) with
      | Except.error e => Except.error ("invalid regex pattern: " ++ e)
      | Except.ok re =>
          match expandTildePath os pathPattern with
          | Except.error e => Except.error e
          | Except.ok pathPattern =>
              match os.glob pathPattern with
              | Except.error e => Except.error ("invalid path pattern: " ++ e)
              | Except.ok fileMatches =>
                  if fileMatches.isEmpty then Except.ok "No files matched the pattern"
                  else
                    match grepAll os re fileMatches with
                    | Except.error e => Except.error e
                    | Except.ok results =>
                        if results.isEmpty then Except.ok "No matches found"
                        else Except.ok (DeepAnalysis.joinStrings results "\n")

/-- `GlobFiles` from fileops.go: context check, tilde expansion, glob; a
stat failure skips the entry and directories are marked with a trailing
slash. -/
def GlobFiles (os : OS) (ctx : Option String) (pattern : String) :
    Except String String :=
  match ctx with
  | some e => Except.error e
  | none =>
      match expandTildePath os pattern with
      | Except.error e => Except.error e
      | Except.ok pattern =>
          match os.glob pattern with
          | Except.error e => Except.error ("invalid glob pattern: " ++ e)
          | Except.ok fileMatches =>
              if fileMatches.isEmpty then Except.ok "No files matched the pattern"
              else
                let results := fileMatches.filterMap fun path =>
                  match os.stat path with
                  | Except.error _ => none
                  | Except.ok info => if info.isDir then some (path ++ "/") else some path
                Except.ok (DeepAnalysis.joinStrings results "\n")

end Fileops

namespace DeepAnalysis

/-! ## Helper lemmas -/

/-- The effective conversation identifier is never empty. -/
theorem effectiveConversationID_ne_empty (req : Request) :
    effectiveConversationID req ≠ "" := by
  unfold effectiveConversationID
  split
  · intro h
    exact absurd h (by decide)
  · assumption

/-- The last successful remote outcome of a call sequence, if any: a failure
is skipped, a success is returned unless a later success follows. -/
def lastOk : List (Except String Response) → Option Response
  | [] => none
  | Except.ok r :: rest => some ((lastOk rest).getD r)
  | Except.error _ :: rest => lastOk rest

@[simp] theorem lastOk_nil : lastOk [] = none := rfl

@[simp] theorem lastOk_cons_ok (r : Response) (rest : List (Except String Response)) :
    lastOk (Except.ok r :: rest) = some ((lastOk rest).getD r) := rfl

@[simp] theorem lastOk_cons_error (e : String) (rest : List (Except String Response)) :
    lastOk (Except.error e :: rest) = lastOk rest := rfl

theorem map_id_getD (o : Option Response) (r : Response) :
    (o.map Response.id).getD r.id = (o.getD r).id := by
  cases o <;> rfl

theorem buildToolOutputs_length (fops : FileOps) (tcs : List ToolCall) :
    (buildToolOutputs fops tcs).length = tcs.length := by
  simp [buildToolOutputs]

theorem buildToolOutputs_map_callID (fops : FileOps) (tcs : List ToolCall) :
    (buildToolOutputs fops tcs).map InputItem.callIDOf = tcs.map ToolCall.id := by
  induction tcs with
  | nil => rfl
  | cons tc rest ih =>
      simp only [buildToolOutputs, List.map_cons] at *
      cases executeFunction fops tc.name tc.arguments <;>
        simp [InputItem.callIDOf, ih]

/-! ## Claims -/

/-- **C6.** For every request with `continue=false`, any previously stored
turn pointer for the request's effective conversation identifier is cleared
before the new turn is submitted (the conversation map at submission time is
the cleared map, whose pointer for that identifier reads empty), and the
submitted turn carries no continuation pointer. -/
theorem c6_continue_false_resets (conv : Conv) (fops : FileOps)
    (svc : Nat → Except String Response) (req : Request) (task : String)
    (htask : req.task = some task) (hcont : req.continueConversation = false) :
    (Handle conv fops svc req).convAtSubmit
        = clearRespID conv (effectiveConversationID req) ∧
    getRespID (Handle conv fops svc req).convAtSubmit (effectiveConversationID req) = "" ∧
    ∃ ps, (Handle conv fops svc req).turns.head? = some ps ∧
      ps.previousResponseID = none := by
  obtain ⟨t, rctx, rfiles, rcont, rcid⟩ := req
  simp only at htask hcont
  subst htask
  subst hcont
  cases hsvc : svc 0 with
  | error e =>
      simp only [Handle, hsvc]
      exact ⟨rfl, by simp, _, rfl, by simp⟩
  | ok r =>
      simp only [Handle, hsvc]
      exact ⟨rfl, by simp, _, rfl, by simp⟩

/-- **C7.** For every request with `continue=true`: when a non-empty pointer
P is stored for the effective conversation identifier, the submitted initial
turn's continuation pointer equals P; when no pointer is stored (the lookup
reads empty), the turn is submitted — without error — with no continuation
pointer. -/
theorem c7_continue_true_uses_stored_pointer (conv : Conv) (fops : FileOps)
    (svc : Nat → Except String Response) (req : Request) (task : String)
    (htask : req.task = some task) (hcont : req.continueConversation = true) :
    ∃ ps, (Handle conv fops svc req).turns.head? = some ps ∧
      (∀ P, P ≠ "" → getRespID conv (effectiveConversationID req) = P →
        ps.previousResponseID = some P) ∧
      (getRespID conv (effectiveConversationID req) = "" →
        ps.previousResponseID = none) := by
  obtain ⟨t, rctx, rfiles, rcont, rcid⟩ := req
  simp only at htask hcont
  subst htask
  subst hcont
  cases hsvc : svc 0 with
  | error e =>
      simp only [Handle, hsvc]
      refine ⟨_, rfl, ?_, ?_⟩
      · intro P hP hget
        simp [hget, hP]
      · intro hget
        simp [hget]
  | ok r =>
      simp only [Handle, hsvc]
      refine ⟨_, rfl, ?_, ?_⟩
      · intro P hP hget
        simp [hget, hP]
      · intro hget
        simp [hget]

/-- **C8, counterexample.** The claim says a request whose task text is
empty or whitespace-only yields a missing-input error and zero remote calls.
It is false: `RequireString("task")` rejects only an absent (or non-string)
argument, so a whitespace-only task string passes validation; here a request
with task `" "` completes successfully with the remote text answer, after
exactly one remote call. -/
theorem c8_counterexample :
    (Handle (fun _ => "")
        ⟨fun _ => Except.error "e", fun _ _ _ => Except.error "e",
          fun _ => Except.error "e"⟩
        (fun _ => Except.ok ⟨"r1", [⟨"message", "", "", "", [⟨"output_text", "four"⟩]⟩]⟩)
        ⟨some " ", "", [], true, ""⟩).result = NewToolResultText "four" ∧
    (Handle (fun _ => "")
        ⟨fun _ => Except.error "e", fun _ _ _ => Except.error "e",
          fun _ => Except.error "e"⟩
        (fun _ => Except.ok ⟨"r1", [⟨"message", "", "", "", [⟨"output_text", "four"⟩]⟩]⟩)
        ⟨some " ", "", [], true, ""⟩).calls.length = 1 := by
  exact ⟨rfl, rfl⟩

/-- **C8, amended.** `Handle` returns the missing-input error and issues
zero remote calls exactly when the task argument is absent; any present task
string — including an empty or whitespace-only one — passes validation and
the request proceeds to the remote service (at least one remote call is
issued). -/
theorem c8_missing_task_rejected_amended (conv : Conv) (fops : FileOps)
    (svc : Nat → Except String Response) (req : Request) :
    (req.task = none →
      (Handle conv fops svc req).result = NewToolResultError requireTaskErrorMsg ∧
      (Handle conv fops svc req).calls = []) ∧
    (∀ task, req.task = some task → (Handle conv fops svc req).calls ≠ []) := by
  obtain ⟨t, rctx, rfiles, rcont, rcid⟩ := req
  constructor
  · intro htask
    simp only at htask
    subst htask
    exact ⟨rfl, rfl⟩
  · intro task htask
    simp only at htask
    subst htask
    cases hsvc : svc 0 <;> simp [Handle, hsvc]

/-- Invariant of the tool-execution loop: the stored pointer for a non-empty
conversation identifier ends up at the identifier of the last successful
remote call the loop made, and is untouched when no call of the loop
succeeded. -/
theorem handleLoop_conv_lastOk (fops : FileOps) (svc : Nat → Except String Response)
    (cid : String) (hcid : cid ≠ "") :
    ∀ fuel idx response conv,
      getRespID (handleLoop fops svc cid fuel idx response conv).conv cid =
        ((lastOk (handleLoop fops svc cid fuel idx response conv).calls).map
          Response.id).getD (getRespID conv cid) := by
  intro fuel
  induction fuel with
  | zero =>
      intro idx r conv
      simp [handleLoop]
  | succ n ih =>
      intro idx r conv
      by_cases hempty : (extractToolCalls r).isEmpty
      · by_cases htext : extractTextContent r = "" <;>
          simp [handleLoop, hempty, htext]
      · cases hsvc : svc idx with
        | error e =>
            simp [handleLoop, hempty, hsvc]
        | ok r2 =>
            have hrec := ih (idx + 1) r2 (setRespID conv cid r2.id)
            simp only [handleLoop, hempty, hsvc, Bool.false_eq_true, if_false]
            rw [if_pos hcid, hrec, getRespID_setRespID_same, map_id_getD]
            simp

/-- **C1.** The stored turn pointer of the effective conversation identifier
tracks exactly the successful remote calls: after `Handle` it equals the
identifier returned by the last successful remote call of the invocation,
and when no remote call succeeded it is exactly what it was before the first
call was submitted (failed calls never mutate it; the only prior mutation is
the explicit `continue=false` reset, which happens before any call). -/
theorem c1_pointer_tracks_last_success (conv : Conv) (fops : FileOps)
    (svc : Nat → Except String Response) (req : Request) (task : String)
    (htask : req.task = some task) :
    getRespID (Handle conv fops svc req).conv (effectiveConversationID req) =
      ((lastOk (Handle conv fops svc req).calls).map Response.id).getD
        (getRespID (Handle conv fops svc req).convAtSubmit
          (effectiveConversationID req)) := by
  obtain ⟨t, rctx, rfiles, rcont, rcid⟩ := req
  simp only at htask
  subst htask
  have hcid := effectiveConversationID_ne_empty
    (⟨some task, rctx, rfiles, rcont, rcid⟩ : Request)
  cases hsvc : svc 0 with
  | error e =>
      simp [Handle, hsvc]
  | ok r =>
      simp only [Handle, hsvc]
      rw [if_pos hcid, handleLoop_conv_lastOk fops svc _ hcid maxIterations 1 r _,
        getRespID_setRespID_same, map_id_getD]
      simp

/-- The tool-execution loop under a remote service that always succeeds and
always requests at least one tool call: every iteration submits one
follow-up turn, the whole budget is consumed, and the loop ends in the
budget-exhausted error. -/
theorem handleLoop_always_tools (fops : FileOps) (svcOk : Nat → Response)
    (cid : String) (htools : ∀ k, extractToolCalls (svcOk k) ≠ []) :
    ∀ fuel idx r conv, extractToolCalls r ≠ [] →
      (handleLoop fops (fun k => Except.ok (svcOk k)) cid fuel idx r conv).result
          = NewToolResultError "Max function call iterations reached" ∧
      (handleLoop fops (fun k => Except.ok (svcOk k)) cid fuel idx r conv).turns.length
          = fuel := by
  intro fuel
  induction fuel with
  | zero =>
      intro idx r conv _
      exact ⟨rfl, rfl⟩
  | succ n ih =>
      intro idx r conv h
      have hempty : (extractToolCalls r).isEmpty = false := by
        simpa [List.isEmpty_iff] using h
      simp only [handleLoop, hempty, Bool.false_eq_true, if_false]
      refine ⟨(ih _ _ _ (htools idx)).1, ?_⟩
      rw [List.length_cons, (ih _ _ _ (htools idx)).2]

/-- **C2.** Against a remote service whose every response contains at least
one tool-call item, `Handle` terminates with the budget-exhausted error
after exactly the configured maximum number of tool-execution turns
(`maxIterations = 10` follow-up turns, i.e. `maxIterations + 1` remote
exchanges counting the initial turn); `Handle` cannot loop indefinitely
since the loop is structurally recursive on the budget. -/
theorem c2_iteration_cap (conv : Conv) (fops : FileOps) (req : Request)
    (task : String) (svcOk : Nat → Response) (htask : req.task = some task)
    (htools : ∀ k, extractToolCalls (svcOk k) ≠ []) :
    (Handle conv fops (fun k => Except.ok (svcOk k)) req).result
        = NewToolResultError "Max function call iterations reached" ∧
    (Handle conv fops (fun k => Except.ok (svcOk k)) req).turns.length
        = maxIterations + 1 := by
  obtain ⟨t, rctx, rfiles, rcont, rcid⟩ := req
  simp only at htask
  subst htask
  simp only [Handle]
  refine ⟨(handleLoop_always_tools fops svcOk _ htools maxIterations 1
    (svcOk 0) _ (htools 0)).1, ?_⟩
  rw [List.length_cons, (handleLoop_always_tools fops svcOk _ htools maxIterations 1
    (svcOk 0) _ (htools 0)).2]

/-- **C3.** For every turn whose response contains N tool-call items, the
follow-up turn the loop submits carries exactly N tool-output entries — the
outputs built from those N calls — each keyed by the original call
identifier in the order the calls were received, whatever each individual
execution returned, and it continues the turn just answered. -/
theorem c3_tool_output_correlation (fops : FileOps)
    (svc : Nat → Except String Response) (cid : String) (fuel idx : Nat)
    (conv : Conv) (r : Response) (tcs : List ToolCall)
    (htcs : extractToolCalls r = tcs) (hne : tcs ≠ []) :
    ∃ ps, (handleLoop fops svc cid (fuel + 1) idx r conv).turns.head? = some ps ∧
      ps.input = buildToolOutputs fops tcs ∧
      ps.input.length = tcs.length ∧
      ps.input.map InputItem.callIDOf = tcs.map ToolCall.id ∧
      ps.previousResponseID = some r.id := by
  subst htcs
  have hempty : (extractToolCalls r).isEmpty = false := by
    simpa [List.isEmpty_iff] using hne
  cases hsvc : svc idx with
  | error e =>
      simp only [handleLoop, hempty, Bool.false_eq_true, if_false, hsvc]
      exact ⟨_, rfl, rfl, buildToolOutputs_length _ _,
        buildToolOutputs_map_callID _ _, rfl⟩
  | ok r2 =>
      simp only [handleLoop, hempty, Bool.false_eq_true, if_false, hsvc]
      exact ⟨_, rfl, rfl, buildToolOutputs_length _ _,
        buildToolOutputs_map_callID _ _, rfl⟩

/-- **C4.** Failures of a single tool call are contained: an unrecognized
tool name or an unparseable argument payload makes that call's execution
fail, the failing call's output entry is the inline string
`"Error: <reason>"`, every other call of the same turn still gets its own
output entry, and a turn with tool calls still submits its follow-up turn
(nothing is aborted). -/
theorem c4_per_call_failure_contained (fops : FileOps)
    (svc : Nat → Except String Response) (cid : String)
    (tcs : List ToolCall) (i : Nat) (hi : i < tcs.length) :
    (∀ name args, name ≠ "read_file" → name ≠ "grep_files" → name ≠ "glob_files" →
      executeFunction fops name args = Except.error ("unknown function: " ++ name)) ∧
    (∀ args, jsonParse args = none →
      executeFunction fops "read_file" args
          = Except.error "invalid arguments: invalid JSON" ∧
      executeFunction fops "grep_files" args
          = Except.error "invalid arguments: invalid JSON" ∧
      executeFunction fops "glob_files" args
          = Except.error "invalid arguments: invalid JSON") ∧
    (∀ e, executeFunction fops (tcs.get ⟨i, hi⟩).name (tcs.get ⟨i, hi⟩).arguments
        = Except.error e →
      (buildToolOutputs fops tcs).get ⟨i, by simpa [buildToolOutputs_length] using hi⟩
        = InputItem.functionCallOutput (tcs.get ⟨i, hi⟩).id ("Error: " ++ e)) ∧
    (buildToolOutputs fops tcs).length = tcs.length ∧
    (∀ j (hj : j < tcs.length), ∃ out,
      (buildToolOutputs fops tcs).get ⟨j, by simpa [buildToolOutputs_length] using hj⟩
        = InputItem.functionCallOutput (tcs.get ⟨j, hj⟩).id out) ∧
    (∀ fuel idx r conv, extractToolCalls r = tcs →
      (handleLoop fops svc cid (fuel + 1) idx r conv).turns ≠ []) := by
  refine ⟨?_, ?_, ?_, buildToolOutputs_length _ _, ?_, ?_⟩
  · intro name args h1 h2 h3
    simp [executeFunction, h1, h2, h3]
  · intro args hparse
    refine ⟨?_, ?_, ?_⟩ <;>
      simp [executeFunction, unmarshalReadFileArgs, unmarshalGrepFilesArgs,
        unmarshalGlobFilesArgs, hparse]
  · intro e he
    simp [buildToolOutputs, List.get_eq_getElem, List.getElem_map] at he ⊢
    simp [he]
  · intro j hj
    cases h : executeFunction fops (tcs.get ⟨j, hj⟩).name (tcs.get ⟨j, hj⟩).arguments with
    | error e =>
        refine ⟨"Error: " ++ e, ?_⟩
        simp [List.get_eq_getElem] at h
        simp [buildToolOutputs, List.get_eq_getElem, List.getElem_map, h]
    | ok out =>
        refine ⟨out, ?_⟩
        simp [List.get_eq_getElem] at h
        simp [buildToolOutputs, List.get_eq_getElem, List.getElem_map, h]
  · intro fuel idx r conv htcs
    have hne : tcs ≠ [] := by
      intro hnil
      rw [hnil] at hi
      exact absurd hi (by simp)
    have hempty : (extractToolCalls r).isEmpty = false := by
      rw [htcs]
      simpa [List.isEmpty_iff] using hne
    cases hsvc : svc idx <;> simp [handleLoop, hempty, hsvc]

theorem isInfix_append_left {α : Type} {l₁ l₂ : List α} (l : List α)
    (h : l₁ <:+: l₂) : l₁ <:+: l ++ l₂ := by
  obtain ⟨s, t, rfl⟩ := h
  exact ⟨l ++ s, t, by simp⟩

theorem isInfix_append_right {α : Type} {l₁ l₂ : List α} (l : List α)
    (h : l₁ <:+: l₂) : l₁ <:+: l₂ ++ l := by
  obtain ⟨s, t, rfl⟩ := h
  exact ⟨s, t ++ l, by simp⟩

theorem mem_data_infix_joinStringsRest (sep : String) :
    ∀ (parts : List String) (s : String), s ∈ parts →
      s.data <:+: (joinStrings.joinStringsRest parts sep).data := by
  intro parts
  induction parts with
  | nil =>
      intro s h
      cases h
  | cons p rest ih =>
      intro s h
      rcases List.mem_cons.mp h with rfl | h'
      · exact ⟨sep.data, (joinStrings.joinStringsRest rest sep).data,
          by simp [joinStrings.joinStringsRest, String.data_append]⟩
      · have := ih s h'
        rw [joinStrings.joinStringsRest, String.data_append, String.data_append]
        exact isInfix_append_left _ this

theorem mem_data_infix_joinStrings (parts : List String) (sep s : String)
    (h : s ∈ parts) : s.data <:+: (joinStrings parts sep).data := by
  cases parts with
  | nil => cases h
  | cons p rest =>
      rcases List.mem_cons.mp h with rfl | h'
      · rw [joinStrings, String.data_append]
        exact (List.prefix_append _ _).isInfix
      · rw [joinStrings, String.data_append]
        exact isInfix_append_left _ (mem_data_infix_joinStringsRest sep rest s h')

theorem filesContentOf_ne_empty (fops : FileOps) (files : List String)
    (h : files.length > 0) : filesContentOf fops files ≠ "" := by
  rw [filesContentOf, if_pos h]
  intro hcontra
  have h2 := congrArg String.data hcontra
  have h0 : ("" : String).data = [] := rfl
  rw [String.data_append, String.data_append, String.data_append, h0] at h2
  have h3 := List.append_eq_nil.mp h2
  exact absurd h3.2 (by decide)

/-- The annotation of each attached file is a contiguous substring of the
composed prompt. -/
theorem filePart_infix_prompt (fops : FileOps) (files : List String)
    (p : String) (hp : p ∈ files) (context task : String) :
    (filePartOf fops p).data <:+:
      (buildPrompt context (filesContentOf fops files) task).data := by
  have hlen : files.length > 0 := by
    cases files with
    | nil => cases hp
    | cons a l => simp
  have h1 : (filePartOf fops p).data <:+:
      (joinStrings (filePartsOf fops files) "\n").data :=
    mem_data_infix_joinStrings _ _ _ (List.mem_map_of_mem (filePartOf fops) hp)
  have h2 : (filePartOf fops p).data <:+: (filesContentOf fops files).data := by
    rw [filesContentOf, if_pos hlen, String.data_append, String.data_append,
      String.data_append]
    exact isInfix_append_right _ (isInfix_append_left _ h1)
  have hfc := filesContentOf_ne_empty fops files hlen
  rw [buildPrompt]
  by_cases hctx : context ≠ ""
  · rw [if_pos ⟨hctx, hfc⟩]
    rw [String.data_append, String.data_append, String.data_append,
      String.data_append]
    exact isInfix_append_right _ (isInfix_append_right _ (isInfix_append_left _ h2))
  · rw [if_neg (fun hh => hctx hh.1), if_neg hctx, if_pos hfc]
    rw [String.data_append, String.data_append]
    exact isInfix_append_right _ (isInfix_append_right _ h2)

/-- **C5.** A failure to read an attached file does not abort the request:
for every attached file, the composed prompt carries that file's annotation
— the inline read error when the read failed, the full fenced content when
it succeeded — as a contiguous substring, the prompt is submitted as the
initial turn's user message, and the request still proceeds to the remote
service (at least one remote call is made). -/
theorem c5_per_file_attach_isolation (conv : Conv) (fops : FileOps)
    (svc : Nat → Except String Response) (req : Request) (task : String)
    (htask : req.task = some task) (p : String) (hp : p ∈ req.files) :
    (Handle conv fops svc req).calls ≠ [] ∧
    ∃ ps, (Handle conv fops svc req).turns.head? = some ps ∧
      ps.input = [InputItem.message
        (buildPrompt req.context (filesContentOf fops req.files) task) "user"] ∧
      (filePartOf fops p).data <:+:
        (buildPrompt req.context (filesContentOf fops req.files) task).data := by
  obtain ⟨t, rctx, rfiles, rcont, rcid⟩ := req
  simp only at htask hp
  subst htask
  cases hsvc : svc 0 with
  | error e =>
      simp only [Handle, hsvc]
      exact ⟨by simp, _, rfl, rfl, filePart_infix_prompt fops rfiles p hp rctx task⟩
  | ok r =>
      simp only [Handle, hsvc]
      exact ⟨by simp, _, rfl, rfl, filePart_infix_prompt fops rfiles p hp rctx task⟩

/-- A response carrying two tool calls (both with well-formed payloads). -/
def respTwoCalls : Response :=
  ⟨"r1",
    [⟨"function_call", "c1", "read_file", "\x7b\"path\": \"/a\"\x7d", []⟩,
     ⟨"function_call", "c2", "glob_files", "\x7b\"pattern\": \"*\"\x7d", []⟩]⟩

/-- File operations as seen once the ambient context has been cancelled:
every provider call reports the context's error. -/
def fopsCancelled : FileOps :=
  ⟨fun _ => Except.error "context canceled",
   fun _ _ _ => Except.error "context canceled",
   fun _ => Except.error "context canceled"⟩

/-- Healthy file operations that always succeed. -/
def fopsAllOk : FileOps :=
  ⟨fun _ => Except.ok "content", fun _ _ _ => Except.ok "match",
   fun _ => Except.ok "list"⟩

/-- A remote service that answers the initial turn with `respTwoCalls` and
fails every later call with the text of a context cancellation. -/
def svcThenCancel : Nat → Except String Response :=
  fun k => if k = 0 then Except.ok respTwoCalls else Except.error "context canceled"

/-- **C9, counterexample.** The claim says a mid-loop cancellation stops
further remote calls and tool executions and is returned as a distinguished
error. On this concrete run — cancellation right after the initial turn
returned two tool calls — the orchestrator still executes both tool calls
(each producing the inline cancellation error), still issues one further
remote call (two submitted turns in total), and returns the failure wrapped
as the generic remote-service error, byte-for-byte equal to the result of a
plain service failure carrying the same message (so not distinguished);
the pointer persisted by the prior successful turn does remain stored. -/
theorem c9_counterexample :
    (Handle (fun _ => "") fopsCancelled svcThenCancel
        ⟨some "t", "", [], true, ""⟩).turns.length = 2 ∧
    (Handle (fun _ => "") fopsCancelled svcThenCancel
        ⟨some "t", "", [], true, ""⟩).turns.get? 1
      = some ⟨defaultModel, none, some "r1",
          [InputItem.functionCallOutput "c1" "Error: context canceled",
           InputItem.functionCallOutput "c2" "Error: context canceled"],
          toolNames⟩ ∧
    (Handle (fun _ => "") fopsCancelled svcThenCancel
        ⟨some "t", "", [], true, ""⟩).result
      = NewToolResultError "OpenAI API error: context canceled" ∧
    (Handle (fun _ => "") fopsCancelled svcThenCancel
        ⟨some "t", "", [], true, ""⟩).result
      = (Handle (fun _ => "") fopsAllOk svcThenCancel
        ⟨some "t", "", [], true, ""⟩).result ∧
    getRespID (Handle (fun _ => "") fopsCancelled svcThenCancel
        ⟨some "t", "", [], true, ""⟩).conv "default" = "r1" := by
  exact ⟨rfl, rfl, rfl, rfl, rfl⟩

/-- **C9, amended.** When the ambient context is cancelled after a
successful turn leaves tool calls pending (so every remaining tool
execution reports the cancellation and the next remote call fails with it),
the remaining tool executions of that turn all still run and yield the
inline `"Error: <cancellation>"` outputs, exactly one further remote call is
issued and fails, and `Handle` returns that failure wrapped as the same
generic remote-service error used for any remote failure (not a
distinguished cancellation error); the conversation pointer persisted by the
prior successful turn remains stored. -/
theorem c9_cancellation_amended (conv : Conv) (fops : FileOps)
    (svc : Nat → Except String Response) (req : Request) (task : String)
    (htask : req.task = some task) (ec : String) (r0 : Response)
    (h0 : svc 0 = Except.ok r0) (hne : extractToolCalls r0 ≠ [])
    (hdisp : ∀ tc ∈ extractToolCalls r0,
      executeFunction fops tc.name tc.arguments = Except.error ec)
    (h1 : svc 1 = Except.error ec) :
    (Handle conv fops svc req).result
        = NewToolResultError ("OpenAI API error: " ++ ec) ∧
    (Handle conv fops svc req).turns.length = 2 ∧
    getRespID (Handle conv fops svc req).conv (effectiveConversationID req)
        = r0.id ∧
    ∃ ps, (Handle conv fops svc req).turns.get? 1 = some ps ∧
      ps.input = (extractToolCalls r0).map
        (fun tc => InputItem.functionCallOutput tc.id ("Error: " ++ ec)) := by
  obtain ⟨t, rctx, rfiles, rcont, rcid⟩ := req
  simp only at htask
  subst htask
  have hcid := effectiveConversationID_ne_empty
    (⟨some task, rctx, rfiles, rcont, rcid⟩ : Request)
  have hempty : (extractToolCalls r0).isEmpty = false := by
    simpa [List.isEmpty_iff] using hne
  have hout : buildToolOutputs fops (extractToolCalls r0)
      = (extractToolCalls r0).map
        (fun tc => InputItem.functionCallOutput tc.id ("Error: " ++ ec)) := by
    unfold buildToolOutputs
    apply List.map_congr_left
    intro tc htc
    rw [hdisp tc htc]
  have h10 : maxIterations = 9 + 1 := rfl
  simp only [Handle, h0, h10, handleLoop, hempty, Bool.false_eq_true, if_false, h1]
  refine ⟨by simp, by simp, ?_,
    ⟨⟨defaultModel, none, some r0.id, buildToolOutputs fops (extractToolCalls r0),
      toolNames⟩, by simp, hout⟩⟩
  rw [if_pos hcid, getRespID_setRespID_same]

end DeepAnalysis

namespace Fileops

/-- **C10.** A path-like argument of the `~username` form — a leading `~`
immediately followed by a character other than the path separator — is
rejected by each of `ReadFile`, `GrepFiles` (on its path argument, for any
pattern whose regex compiles) and `GlobFiles` with the
`unsupported path format` error, uniformly in the OS oracle: the outcome is
the same whatever the filesystem contains, so no filesystem access
influences it; only a leading `~/` (or a bare `~`) reaches the
home-directory expansion. -/
theorem c10_tilde_username_rejected (os : OS) (path : String)
    (c : Char) (rest : List Char) (hdata : path.data = '~' :: c :: rest)
    (hc : c ≠ '/') (pattern : String) (ignoreCase : Bool) (re : String → Bool)
    (hre : os.compileRegex ((if ignoreCase then "(?i)" else "") ++ pattern)
      = Except.ok re) :
    ReadFile os none path = Except.error unsupportedPathMsg ∧
    GrepFiles os none pattern path ignoreCase
        = Except.error unsupportedPathMsg ∧
    GlobFiles os none path = Except.error unsupportedPathMsg := by
  have hexp : expandTildePath os path = Except.error unsupportedPathMsg := by
    simp [expandTildePath, hdata, hc]
  exact ⟨by simp [ReadFile, hexp], by simp [GrepFiles, hre, hexp],
    by simp [GlobFiles, hexp]⟩

end Fileops

namespace DeepAnalysis

/-! ## Witnesses: the theorems above applied at concrete inputs -/

/-- The empty conversation map. -/
def convEmpty : Conv := fun _ => ""

/-- A conversation map with one stored pointer, for `"default"`. -/
def convStored : Conv := fun k => if k = "default" then "prev-7" else ""

/-- A response with one text answer and no tool calls. -/
def respHello : Response :=
  ⟨"r9", [⟨"message", "", "", "", [⟨"output_text", "hello"⟩]⟩]⟩

/-- A request carrying only a task. -/
def reqBasic : Request := ⟨some "analyze", "", [], true, ""⟩

theorem c1_pointer_tracks_last_success_witness :
    reqBasic.task = some "analyze" ∧
    getRespID (Handle convEmpty fopsAllOk (fun _ => Except.ok respHello)
        reqBasic).conv (effectiveConversationID reqBasic) =
      ((lastOk (Handle convEmpty fopsAllOk (fun _ => Except.ok respHello)
          reqBasic).calls).map Response.id).getD
        (getRespID (Handle convEmpty fopsAllOk (fun _ => Except.ok respHello)
            reqBasic).convAtSubmit (effectiveConversationID reqBasic)) :=
  ⟨rfl, c1_pointer_tracks_last_success convEmpty fopsAllOk
    (fun _ => Except.ok respHello) reqBasic "analyze" rfl⟩

theorem c2_iteration_cap_witness :
    extractToolCalls respTwoCalls ≠ [] ∧
    (Handle convEmpty fopsAllOk (fun _ => Except.ok respTwoCalls)
        reqBasic).result = NewToolResultError "Max function call iterations reached" ∧
    (Handle convEmpty fopsAllOk (fun _ => Except.ok respTwoCalls)
        reqBasic).turns.length = maxIterations + 1 :=
  ⟨by decide,
   (c2_iteration_cap convEmpty fopsAllOk reqBasic "analyze" (fun _ => respTwoCalls)
     rfl (fun _ => (by decide : extractToolCalls respTwoCalls ≠ []))).1,
   (c2_iteration_cap convEmpty fopsAllOk reqBasic "analyze" (fun _ => respTwoCalls)
     rfl (fun _ => (by decide : extractToolCalls respTwoCalls ≠ []))).2⟩

theorem c3_tool_output_correlation_witness :
    extractToolCalls respTwoCalls
      = [⟨"c1", "read_file", "\x7b\"path\": \"/a\"\x7d"⟩,
         ⟨"c2", "glob_files", "\x7b\"pattern\": \"*\"\x7d"⟩] ∧
    ([⟨"c1", "read_file", "\x7b\"path\": \"/a\"\x7d"⟩,
      ⟨"c2", "glob_files", "\x7b\"pattern\": \"*\"\x7d"⟩] : List ToolCall) ≠ [] ∧
    ∃ ps, (handleLoop fopsAllOk (fun _ => Except.error "boom") "default" (0 + 1) 1
        respTwoCalls convEmpty).turns.head? = some ps ∧
      ps.input = buildToolOutputs fopsAllOk
        [⟨"c1", "read_file", "\x7b\"path\": \"/a\"\x7d"⟩,
         ⟨"c2", "glob_files", "\x7b\"pattern\": \"*\"\x7d"⟩] ∧
      ps.input.length
        = ([⟨"c1", "read_file", "\x7b\"path\": \"/a\"\x7d"⟩,
            ⟨"c2", "glob_files", "\x7b\"pattern\": \"*\"\x7d"⟩] : List ToolCall).length ∧
      ps.input.map InputItem.callIDOf
        = ([⟨"c1", "read_file", "\x7b\"path\": \"/a\"\x7d"⟩,
            ⟨"c2", "glob_files", "\x7b\"pattern\": \"*\"\x7d"⟩] : List ToolCall).map ToolCall.id ∧
      ps.previousResponseID = some respTwoCalls.id :=
  ⟨rfl, by decide,
   c3_tool_output_correlation fopsAllOk (fun _ => Except.error "boom") "default" 0 1
     convEmpty respTwoCalls _ rfl (by decide)⟩

/-- Three tool calls whose middle call has an unknown tool name. -/
def tcsMixed : List ToolCall :=
  [⟨"c1", "read_file", "\x7b\"path\": \"/a\"\x7d"⟩,
   ⟨"c2", "bogus", "x"⟩,
   ⟨"c3", "glob_files", "\x7b\"pattern\": \"*\"\x7d"⟩]

theorem c4_per_call_failure_contained_witness :
    (1 : Nat) < tcsMixed.length ∧
    executeFunction fopsAllOk "bogus" "x" = Except.error "unknown function: bogus" ∧
    jsonParse "not json" = none ∧
    executeFunction fopsAllOk "read_file" "not json"
        = Except.error "invalid arguments: invalid JSON" ∧
    (buildToolOutputs fopsAllOk tcsMixed).get ⟨1, by decide⟩
        = InputItem.functionCallOutput "c2" "Error: unknown function: bogus" ∧
    (buildToolOutputs fopsAllOk tcsMixed).length = tcsMixed.length ∧
    (∃ out, (buildToolOutputs fopsAllOk tcsMixed).get ⟨2, by decide⟩
        = InputItem.functionCallOutput (tcsMixed.get ⟨2, by decide⟩).id out) ∧
    (handleLoop fopsAllOk (fun _ => Except.error "boom") "default" (0 + 1) 1
        ⟨"r1", tcsMixed.map fun tc => ⟨"function_call", tc.id, tc.name, tc.arguments, []⟩⟩
        convEmpty).turns ≠ [] :=
  ⟨by decide,
   (c4_per_call_failure_contained fopsAllOk (fun _ => Except.error "boom") "default"
      tcsMixed 1 (by decide)).1 "bogus" "x" (by decide) (by decide) (by decide),
   rfl,
   ((c4_per_call_failure_contained fopsAllOk (fun _ => Except.error "boom") "default"
      tcsMixed 1 (by decide)).2.1 "not json" rfl).1,
   (c4_per_call_failure_contained fopsAllOk (fun _ => Except.error "boom") "default"
      tcsMixed 1 (by decide)).2.2.1 "unknown function: bogus" rfl,
   (c4_per_call_failure_contained fopsAllOk (fun _ => Except.error "boom") "default"
      tcsMixed 1 (by decide)).2.2.2.1,
   (c4_per_call_failure_contained fopsAllOk (fun _ => Except.error "boom") "default"
      tcsMixed 1 (by decide)).2.2.2.2.1 2 (by decide),
   (c4_per_call_failure_contained fopsAllOk (fun _ => Except.error "boom") "default"
      tcsMixed 1 (by decide)).2.2.2.2.2 0 1
      ⟨"r1", tcsMixed.map fun tc => ⟨"function_call", tc.id, tc.name, tc.arguments, []⟩⟩
      convEmpty (by decide)⟩

/-- File operations where exactly one path is readable. -/
def fopsOneBad : FileOps :=
  ⟨fun p => if p = "/ok.txt" then Except.ok "OK-CONTENT"
    else Except.error "failed to stat file: missing",
   fun _ _ _ => Except.ok "match", fun _ => Except.ok "list"⟩

/-- A request attaching one readable and one missing file. -/
def reqTwoFiles : Request :=
  ⟨some "list configs", "", ["/ok.txt", "/missing.txt"], true, ""⟩

theorem c5_per_file_attach_isolation_witness :
    reqTwoFiles.task = some "list configs" ∧
    "/missing.txt" ∈ reqTwoFiles.files ∧
    ((Handle convEmpty fopsOneBad (fun _ => Except.ok respHello)
        reqTwoFiles).calls ≠ [] ∧
     ∃ ps, (Handle convEmpty fopsOneBad (fun _ => Except.ok respHello)
          reqTwoFiles).turns.head? = some ps ∧
       ps.input = [InputItem.message
         (buildPrompt reqTwoFiles.context (filesContentOf fopsOneBad reqTwoFiles.files)
           "list configs") "user"] ∧
       (filePartOf fopsOneBad "/missing.txt").data <:+:
         (buildPrompt reqTwoFiles.context (filesContentOf fopsOneBad reqTwoFiles.files)
           "list configs").data) :=
  ⟨rfl, by decide,
   c5_per_file_attach_isolation convEmpty fopsOneBad (fun _ => Except.ok respHello)
     reqTwoFiles "list configs" rfl "/missing.txt" (by decide)⟩

/-- A request that explicitly starts a fresh conversation. -/
def reqFresh : Request := ⟨some "analyze", "", [], false, "sess"⟩

theorem c6_continue_false_resets_witness :
    reqFresh.task = some "analyze" ∧
    reqFresh.continueConversation = false ∧
    ((Handle convStored fopsAllOk (fun _ => Except.ok respHello) reqFresh).convAtSubmit
        = clearRespID convStored (effectiveConversationID reqFresh) ∧
     getRespID (Handle convStored fopsAllOk (fun _ => Except.ok respHello)
        reqFresh).convAtSubmit (effectiveConversationID reqFresh) = "" ∧
     ∃ ps, (Handle convStored fopsAllOk (fun _ => Except.ok respHello)
        reqFresh).turns.head? = some ps ∧ ps.previousResponseID = none) :=
  ⟨rfl, rfl,
   c6_continue_false_resets convStored fopsAllOk (fun _ => Except.ok respHello)
     reqFresh "analyze" rfl rfl⟩

theorem c7_continue_true_uses_stored_pointer_witness :
    reqBasic.task = some "analyze" ∧
    reqBasic.continueConversation = true ∧
    (∃ ps, (Handle convStored fopsAllOk (fun _ => Except.ok respHello)
        reqBasic).turns.head? = some ps ∧
      (∀ P, P ≠ "" → getRespID convStored (effectiveConversationID reqBasic) = P →
        ps.previousResponseID = some P) ∧
      (getRespID convStored (effectiveConversationID reqBasic) = "" →
        ps.previousResponseID = none)) :=
  ⟨rfl, rfl,
   c7_continue_true_uses_stored_pointer convStored fopsAllOk
     (fun _ => Except.ok respHello) reqBasic "analyze" rfl rfl⟩

theorem c8_missing_task_rejected_amended_witness :
    ((Handle convEmpty fopsAllOk (fun _ => Except.ok respHello)
        ⟨none, "", [], true, ""⟩).result = NewToolResultError requireTaskErrorMsg ∧
     (Handle convEmpty fopsAllOk (fun _ => Except.ok respHello)
        ⟨none, "", [], true, ""⟩).calls = []) ∧
    (Handle convEmpty fopsAllOk (fun _ => Except.ok respHello)
        ⟨some "", "", [], true, ""⟩).calls ≠ [] :=
  ⟨(c8_missing_task_rejected_amended convEmpty fopsAllOk
      (fun _ => Except.ok respHello) ⟨none, "", [], true, ""⟩).1 rfl,
   (c8_missing_task_rejected_amended convEmpty fopsAllOk
      (fun _ => Except.ok respHello) ⟨some "", "", [], true, ""⟩).2 "" rfl⟩

theorem c9_cancellation_amended_witness :
    reqBasic.task = some "analyze" ∧
    svcThenCancel 0 = Except.ok respTwoCalls ∧
    extractToolCalls respTwoCalls ≠ [] ∧
    (∀ tc ∈ extractToolCalls respTwoCalls,
      executeFunction fopsCancelled tc.name tc.arguments
        = Except.error "context canceled") ∧
    svcThenCancel 1 = Except.error "context canceled" ∧
    ((Handle convEmpty fopsCancelled svcThenCancel reqBasic).result
        = NewToolResultError ("OpenAI API error: " ++ "context canceled") ∧
     (Handle convEmpty fopsCancelled svcThenCancel reqBasic).turns.length = 2 ∧
     getRespID (Handle convEmpty fopsCancelled svcThenCancel reqBasic).conv
        (effectiveConversationID reqBasic) = respTwoCalls.id ∧
     ∃ ps, (Handle convEmpty fopsCancelled svcThenCancel reqBasic).turns.get? 1
          = some ps ∧
       ps.input = (extractToolCalls respTwoCalls).map
         (fun tc => InputItem.functionCallOutput tc.id
           ("Error: " ++ "context canceled"))) := by
  have hdisp : ∀ tc ∈ extractToolCalls respTwoCalls,
      executeFunction fopsCancelled tc.name tc.arguments
        = Except.error "context canceled" := by
    intro tc htc
    have htc2 : tc ∈ ([⟨"c1", "read_file", "\x7b\"path\": \"/a\"\x7d"⟩,
        ⟨"c2", "glob_files", "\x7b\"pattern\": \"*\"\x7d"⟩] : List ToolCall) := htc
    cases htc2 with
    | head => rfl
    | tail _ htc3 =>
        cases htc3 with
        | head => rfl
        | tail _ htc4 => cases htc4
  exact ⟨rfl, rfl, by decide, hdisp, rfl,
    c9_cancellation_amended convEmpty fopsCancelled svcThenCancel reqBasic "analyze"
      rfl "context canceled" respTwoCalls rfl (by decide) hdisp rfl⟩

end DeepAnalysis

namespace Fileops

/-- A concrete OS oracle for the witnesses. -/
def osW : OS :=
  ⟨Except.ok "/home/u", fun a b => a ++ b,
   fun _ => Except.error "nope", fun _ => Except.error "nope",
   fun _ => Except.ok [], fun _ => Except.error "nope", fun _ => Except.ok [],
   fun _ => Except.ok (fun _ => true)⟩

theorem c10_tilde_username_rejected_witness :
    "~user".data = '~' :: 'u' :: ['s', 'e', 'r'] ∧
    ('u' ≠ '/') ∧
    osW.compileRegex ((if false then "(?i)" else "") ++ "x")
        = Except.ok (fun _ => true) ∧
    (ReadFile osW none "~user" = Except.error unsupportedPathMsg ∧
     GrepFiles osW none "x" "~user" false = Except.error unsupportedPathMsg ∧
     GlobFiles osW none "~user" = Except.error unsupportedPathMsg) :=
  ⟨rfl, by decide, rfl,
   c10_tilde_username_rejected osW "~user" 'u' ['s', 'e', 'r'] rfl (by decide)
     "x" false (fun _ => true) rfl⟩

end Fileops
